import Mathlib

/-!
Verification development for the excel-to-db placement pipeline.

The Python sources are shallowly embedded below.  Spreadsheet cell values
are modelled by `PyVal` (`none`, a string, or the pandas NaN sentinel);
Python strings are Lean `String`s and the string routines work on their
character lists.  Character-class tests and case mapping are defined on
ASCII code points: every character class used by the sources
(`[^a-zA-Z0-9]`, `\s`, `\b`, the honorific literals) either is pure ASCII
or is applied after a filter that removes everything outside ASCII, so the
ASCII definitions agree with Python on any input the functions inspect.
Numbers are `Int`.  Firestore documents are records, collections are
association lists keyed by document id, and the write-batch mechanics of
the source (queued operations, commits every `FIRESTORE_BATCH_SIZE`
operations, reads served from the committed state) are modelled
explicitly.
-/

/-! ## Character utilities -/

/-- ASCII alphanumeric test: the character class `[a-zA-Z0-9]` of
`re.sub(r'[^a-zA-Z0-9]', '', ...)` in `excel_utils.py`. -/
def isAlnumChar (c : Char) : Bool :=
  (48 ≤ c.toNat && c.toNat ≤ 57) || (65 ≤ c.toNat && c.toNat ≤ 90) ||
    (97 ≤ c.toNat && c.toNat ≤ 122)

/-- Word-character test for the regex `\b` boundaries: `[a-zA-Z0-9_]`. -/
def isWordChar (c : Char) : Bool :=
  isAlnumChar c || c.toNat == 95

/-- Whitespace as recognised by Python's `str.strip()` and the regex `\s`
(ASCII range: space, tab, newline, vertical tab, form feed, carriage
return). -/
def isPySpace (c : Char) : Bool :=
  c.toNat == 32 || c.toNat == 9 || c.toNat == 10 || c.toNat == 11 ||
    c.toNat == 12 || c.toNat == 13

/-- ASCII upper-casing, the effect of Python `str.upper()` on the ASCII
alphanumeric characters that survive the `[^a-zA-Z0-9]` filter. -/
def upChar (c : Char) : Char :=
  if 97 ≤ c.toNat && c.toNat ≤ 122 then Char.ofNat (c.toNat - 32) else c

/-- ASCII lower-casing, the effect of Python `str.lower()` on ASCII. -/
def lowChar (c : Char) : Char :=
  if 65 ≤ c.toNat && c.toNat ≤ 90 then Char.ofNat (c.toNat + 32) else c

/-- Python `str.strip()`: drop leading and trailing whitespace. -/
def pyStrip (l : List Char) : List Char :=
  ((l.dropWhile isPySpace).reverse.dropWhile isPySpace).reverse

/-- `re.sub(r'\s+', ' ', s)`: replace every maximal whitespace run by a
single space.  `prevSpace` records whether the previous character was part
of a run already replaced. -/
def collapseWS : Bool → List Char → List Char
  | _, [] => []
  | prevSpace, c :: rest =>
    if isPySpace c then
      if prevSpace then collapseWS true rest
      else ' ' :: collapseWS true rest
    else c :: collapseWS false rest

/-! ## Honorific removal: `re.sub(r'\b(mr|mrs|ms|dr|prof)\b\.?', '', name)`

The scanner below reproduces `re.sub`'s leftmost, non-overlapping
matching for this fixed pattern.  A match at a position requires a word
boundary before it (start of string or a preceding non-word character —
every alternative starts with a word character), one of the literal
alternatives tried in the regex's order with a word boundary after it,
then an optional dot. -/

/-- Word boundary after the matched group: end of input or a non-word
character next. -/
def boundaryAfter : List Char → Bool
  | [] => true
  | c :: _ => !isWordChar c

/-- Consume the optional trailing dot of `\.?`; returns the last consumed
character (needed for the boundary state of the continued scan) and the
remainder. -/
def finishMatch (lastLit : Char) : List Char → Char × List Char
  | '.' :: rs => ('.', rs)
  | rest => (lastLit, rest)

/-- Try one literal alternative of the group at the current position. -/
def tryAlt (lit : List Char) (lastLit : Char) (l : List Char) :
    Option (Char × List Char) :=
  if lit.isPrefixOf l then
    let rest := l.drop lit.length
    if boundaryAfter rest then some (finishMatch lastLit rest) else none
  else none

/-- Try the alternatives `mr|mrs|ms|dr|prof` in the regex's order
(backtracking from a failed boundary to the next alternative). -/
def honTry (l : List Char) : Option (Char × List Char) :=
  match tryAlt ['m', 'r'] 'r' l with
  | some r => some r
  | none =>
  match tryAlt ['m', 'r', 's'] 's' l with
  | some r => some r
  | none =>
  match tryAlt ['m', 's'] 's' l with
  | some r => some r
  | none =>
  match tryAlt ['d', 'r'] 'r' l with
  | some r => some r
  | none => tryAlt ['p', 'r', 'o', 'f'] 'f' l

/-- One left-to-right pass deleting every match.  `prevWord` says whether
the character before the scan position is a word character (no match can
start there, since `\b` fails).  The fuel argument is initialised with the
list length; every step consumes at least one character, so it never runs
out — it only makes the recursion structural. -/
def honGo : Nat → Bool → List Char → List Char
  | 0, _, l => l
  | _ + 1, _, [] => []
  | fuel + 1, prevWord, c :: rest =>
    if prevWord then c :: honGo fuel (isWordChar c) rest
    else
      match honTry (c :: rest) with
      | some (last, rem) => honGo fuel (isWordChar last) rem
      | none => c :: honGo fuel (isWordChar c) rest

/-- `re.sub(r'\b(mr|mrs|ms|dr|prof)\b\.?', '', l)`. -/
def removeHonorifics (l : List Char) : List Char :=
  honGo l.length false l

/-! ## Spreadsheet values (`excel_utils.py`) -/

/-- A cell value as seen by the pipeline: Python `None` (also standing for
an absent key), a string, or the pandas float-NaN sentinel.  These are the
value shapes the identifier logic distinguishes. -/
inductive PyVal where
  | none : PyVal
  | str : String → PyVal
  | nan : PyVal
deriving DecidableEq

/-- Python truthiness of a `PyVal`: `None` and `""` are falsy; NaN is a
nonzero float and therefore truthy. -/
def PyVal.truthy : PyVal → Bool
  | .none => false
  | .str s => !(s = "")
  | .nan => true

/-- Whether the value is a Python `str`. -/
def PyVal.isStr : PyVal → Bool
  | .str _ => true
  | _ => false

/-- `is_empty_value` (excel_utils.py:169): `None`, a string that strips to
empty, or NaN (`pd.isna`). -/
def is_empty_value : PyVal → Bool
  | .none => true
  | .str s => pyStrip s.data = []
  | .nan => true

/-- `normalize_roll_number` (excel_utils.py:34): non-strings and the empty
string map to `""`; otherwise strip, drop every character outside
`[a-zA-Z0-9]`, and uppercase. -/
def normalize_roll_number : PyVal → String
  | .str s =>
    if s = "" then ""
    else (((pyStrip s.data).filter isAlnumChar).map upChar).asString
  | _ => ""

/-- `normalize_email` (excel_utils.py:53): non-strings and the empty
string map to `""`; otherwise lowercase then strip. -/
def normalize_email : PyVal → String
  | .str s =>
    if s = "" then ""
    else (pyStrip (s.data.map lowChar)).asString
  | _ => ""

/-- `normalize_name` (excel_utils.py:69): lowercase and strip, collapse
whitespace runs to single spaces, remove honorific tokens, strip again. -/
def normalize_name : PyVal → String
  | .str s =>
    if s = "" then ""
    else
      (pyStrip (removeHonorifics (collapseWS false (pyStrip (s.data.map lowChar))))).asString
  | _ => ""

/-- Local part of an email: `email.split('@')[0]`. -/
def localPart (s : String) : String :=
  (s.data.takeWhile (fun c => !(c = '@'))).asString

/-- `generate_student_id` (excel_utils.py:122).  The two hash-based
fallbacks are parametrised: `md5hex8` stands for
`hashlib.md5(·.encode()).hexdigest()[:8]` and `nowHash` for the digest of
`str(datetime.now())`; neither branch is reached by the claims about the
roll-number/email branches. -/
def generate_student_id (md5hex8 : String → String) (nowHash : String)
    (roll_number name email : PyVal) : String :=
  if roll_number.truthy then
    "student_" ++ normalize_roll_number roll_number
  else if email.truthy then
    "student_" ++ localPart (normalize_email email)
  else if name.truthy then
    "student_" ++ md5hex8 (normalize_name name)
  else
    "student_" ++ nowHash

/-- `generate_company_year_id` (excel_utils.py:92). -/
def generate_company_year_id (company_name : String) (year : Int) : String :=
  (company_name.data.filter isAlnumChar).asString ++ toString year

/-- `generate_round_id` (excel_utils.py:108). -/
def generate_round_id (company_year_id : String) (round_number : Int) : String :=
  company_year_id ++ "_round_" ++ toString round_number


/-! ## Character-level lemmas -/

theorem toNat_ofNat_valid (n : Nat) (h : n < 55296) : (Char.ofNat n).toNat = n := by
  simp [Char.ofNat, Nat.isValidChar, h, Char.ofNatAux, Char.toNat, UInt32.toNat,
    BitVec.toNat_ofNatLt]

theorem upChar_toNat (c : Char) (h : 97 ≤ c.toNat ∧ c.toNat ≤ 122) :
    (upChar c).toNat = c.toNat - 32 := by
  have hc : (97 ≤ c.toNat && c.toNat ≤ 122) = true := by
    simp only [Bool.and_eq_true, decide_eq_true_eq]; exact h
  rw [upChar, if_pos hc, toNat_ofNat_valid _ (by omega)]

theorem upChar_eq_self (c : Char) (h : ¬(97 ≤ c.toNat ∧ c.toNat ≤ 122)) : upChar c = c := by
  rw [upChar, if_neg]
  simp only [Bool.and_eq_true, decide_eq_true_eq]
  exact h

/-- An ASCII alphanumeric character upper-cases to an ASCII alphanumeric
character, and upper-casing is idempotent on it. -/
theorem alnum_up (c : Char) (h : isAlnumChar c = true) :
    isAlnumChar (upChar c) = true ∧ upChar (upChar c) = upChar c := by
  simp only [isAlnumChar, Bool.or_eq_true, Bool.and_eq_true, decide_eq_true_eq] at h
  by_cases hl : 97 ≤ c.toNat ∧ c.toNat ≤ 122
  · have h1 : (upChar c).toNat = c.toNat - 32 := upChar_toNat c hl
    refine ⟨?_, ?_⟩
    · simp only [isAlnumChar, h1, Bool.or_eq_true, Bool.and_eq_true, decide_eq_true_eq]
      omega
    · exact upChar_eq_self _ (by omega)
  · have h1 : upChar c = c := upChar_eq_self c hl
    rw [h1]
    refine ⟨?_, h1⟩
    simp only [isAlnumChar, Bool.or_eq_true, Bool.and_eq_true, decide_eq_true_eq]
    omega

/-- Alphanumeric characters are not whitespace. -/
theorem alnum_not_space (c : Char) (h : isAlnumChar c = true) : isPySpace c = false := by
  simp only [isAlnumChar, Bool.or_eq_true, Bool.and_eq_true, decide_eq_true_eq] at h
  simp only [isPySpace, Bool.or_eq_false_iff, beq_eq_false_iff_ne, ne_eq]
  omega

theorem dropWhile_eq_self_of_none (p : Char → Bool) (l : List Char)
    (h : ∀ c ∈ l, p c = false) : l.dropWhile p = l := by
  cases l with
  | nil => rfl
  | cons a l =>
    rw [List.dropWhile_cons, h a (List.mem_cons_self a l)]
    simp

theorem pyStrip_eq_self (l : List Char) (h : ∀ c ∈ l, isPySpace c = false) :
    pyStrip l = l := by
  unfold pyStrip
  rw [dropWhile_eq_self_of_none _ _ h,
      dropWhile_eq_self_of_none _ _ (by intro c hc; exact h c (List.mem_reverse.mp hc)),
      List.reverse_reverse]

theorem data_asString (l : List Char) : (l.asString).data = l := rfl

/-! ## C8: idempotence of roll-number normalization -/

/-- C8: roll-number normalization is idempotent — for every string `x`,
`normalize_roll_number (normalize_roll_number x) = normalize_roll_number x`
— and empty (per `is_empty_value`) or non-string input yields `""`. -/
theorem normalize_roll_number_idem :
    (∀ s : String,
      normalize_roll_number (.str (normalize_roll_number (.str s))) =
        normalize_roll_number (.str s)) ∧
    (∀ v : PyVal, is_empty_value v = true ∨ v.isStr = false →
      normalize_roll_number v = "") := by
  have key : ∀ s : String,
      normalize_roll_number (.str (normalize_roll_number (.str s))) =
        normalize_roll_number (.str s) := by
    intro s
    by_cases hs : s = ""
    · subst hs; decide
    · have hres : normalize_roll_number (.str s) =
          (((pyStrip s.data).filter isAlnumChar).map upChar).asString := by
        simp [normalize_roll_number, hs]
      set L : List Char := ((pyStrip s.data).filter isAlnumChar).map upChar with hL
      have hmem : ∀ c ∈ L, isAlnumChar c = true := by
        intro c hc
        rw [hL] at hc
        obtain ⟨c', hc', rfl⟩ := List.mem_map.mp hc
        exact (alnum_up c' (List.of_mem_filter hc')).1
      by_cases hz : L.asString = ""
      · rw [hres, hz]; decide
      · rw [hres]
        simp only [normalize_roll_number, hz, if_false]
        rw [data_asString,
            pyStrip_eq_self L (fun c hc => alnum_not_space c (hmem c hc)),
            List.filter_eq_self.mpr hmem]
        have : L.map upChar = L := by
          rw [hL, List.map_map]
          exact List.map_congr_left
            (fun c hc => (alnum_up c (List.of_mem_filter hc)).2)
        rw [this]
  refine ⟨key, ?_⟩
  intro v hv
  match v with
  | .none => rfl
  | .nan => rfl
  | .str s =>
    rcases hv with hv | hv
    · simp only [is_empty_value, decide_eq_true_eq] at hv
      by_cases hs : s = ""
      · simp [normalize_roll_number, hs]
      · simp [normalize_roll_number, hs, hv, List.asString]
    · simp [PyVal.isStr] at hv

/-- Witness for C8 at concrete inputs. -/
theorem normalize_roll_number_idem_witness :
    normalize_roll_number (.str (normalize_roll_number (.str " a1-b "))) =
      normalize_roll_number (.str " a1-b ") ∧
    normalize_roll_number (.str "   ") = "" :=
  ⟨normalize_roll_number_idem.1 " a1-b ",
   normalize_roll_number_idem.2 (.str "   ") (Or.inl (by decide))⟩

/-! ## C9: name normalization is not idempotent -/

/-- C9: name normalization is not idempotent.  On `"john mr smith"` the
honorific `mr` is removed after whitespace collapsing, leaving the two
spaces `"john  smith"`; a second application collapses them to
`"john smith"`, a different comparison key. -/
theorem normalize_name_not_idempotent :
    normalize_name (.str "john mr smith") = "john  smith" ∧
    normalize_name (.str (normalize_name (.str "john mr smith"))) = "john smith" ∧
    normalize_name (.str (normalize_name (.str "john mr smith"))) ≠
      normalize_name (.str "john mr smith") := by
  refine ⟨by decide, by decide, by decide⟩

/-! ## C1: branch selection in `generate_student_id` -/

/-- C1 counterexample: a whitespace-only roll number is empty per
`is_empty_value` and the email is non-empty, yet the derived id is
`"student_"` (the roll-number branch fires on the truthy whitespace
string), not `"student_"` followed by the email's local part. -/
theorem generate_student_id_empty_roll_cex :
    is_empty_value (.str " ") = true ∧
    is_empty_value (.str "a@b.com") = false ∧
    generate_student_id (fun _ => "") "" (.str " ") .none (.str "a@b.com") = "student_" ∧
    "student_" ≠ "student_" ++ localPart (normalize_email (.str "a@b.com")) := by
  decide

/-- C1 (amended): the roll-number branch fires whenever the roll number is
Python-truthy (including whitespace-only strings and NaN), returning
`"student_"` followed by the normalized roll number; the email branch is
reached only when the roll number is `None` or `""` and the email is
truthy, returning `"student_"` followed by the local part of the
normalized email. -/
theorem generate_student_id_branch_order (md5hex8 : String → String)
    (nowHash : String) (roll name email : PyVal) :
    (roll.truthy = true →
      generate_student_id md5hex8 nowHash roll name email =
        "student_" ++ normalize_roll_number roll) ∧
    (roll.truthy = false → email.truthy = true →
      generate_student_id md5hex8 nowHash roll name email =
        "student_" ++ localPart (normalize_email email)) := by
  refine ⟨fun h => ?_, fun h1 h2 => ?_⟩ <;> simp [generate_student_id, *]

/-- Witness for C1's amended theorem at concrete inputs. -/
theorem generate_student_id_branch_order_witness :
    generate_student_id (fun _ => "") "h" (.str " 18x ") .none (.str "a@b.com") =
      "student_18X" ∧
    generate_student_id (fun _ => "") "h" (.str "") .none (.str "a@b.com") =
      "student_a" :=
  ⟨((generate_student_id_branch_order (fun _ => "") "h" (.str " 18x ") .none
      (.str "a@b.com")).1 (by decide)).trans (by decide),
   ((generate_student_id_branch_order (fun _ => "") "h" (.str "") .none
      (.str "a@b.com")).2 (by decide) (by decide)).trans (by decide)⟩

/-! ## Association lists

Python dicts and Firestore collections are modelled as association lists
keyed by `String`, with dict-assignment (`aset`) replacing the entry in
place or appending a new one, preserving insertion order. -/

def alookup {α : Type} : List (String × α) → String → Option α
  | [], _ => Option.none
  | p :: m, k => if p.1 = k then some p.2 else alookup m k

def aset {α : Type} : List (String × α) → String → α → List (String × α)
  | [], k, v => [(k, v)]
  | p :: m, k, v => if p.1 = k then (k, v) :: m else p :: aset m k v

theorem alookup_aset_self {α : Type} (m : List (String × α)) (k : String) (v : α) :
    alookup (aset m k v) k = some v := by
  induction m with
  | nil => simp [aset, alookup]
  | cons p m ih =>
    by_cases h : p.1 = k
    · simp [aset, alookup, h]
    · simp [aset, alookup, h, ih]

theorem alookup_aset_ne {α : Type} (m : List (String × α)) (k k' : String) (v : α)
    (h : k' ≠ k) : alookup (aset m k v) k' = alookup m k' := by
  have hk : ¬ k = k' := fun hh => h hh.symm
  induction m with
  | nil => simp [aset, alookup, hk]
  | cons p m ih =>
    by_cases hp : p.1 = k
    · have hp' : ¬ p.1 = k' := by rw [hp]; exact hk
      simp only [aset, if_pos hp, alookup, if_neg hk, if_neg hp']
    · simp only [aset, if_neg hp, alookup, ih]

theorem aset_aset_same {α : Type} (m : List (String × α)) (k : String) (v w : α) :
    aset (aset m k v) k w = aset m k w := by
  induction m with
  | nil => simp [aset]
  | cons p m ih =>
    by_cases h : p.1 = k
    · simp [aset, h]
    · simp [aset, h, ih]

/-! ## Student documents (the `students` collection) -/

/-- One entry of a student's `companyStatus` map
(`firebase_operations.py:477` and `:272`).  `finalSelection` is
`Option Bool` because the source stores Python `None` for non-final
rounds. -/
structure CompanyStatusEntry where
  status : String
  roundReached : Int
  finalSelection : Option Bool
  year : Int
deriving DecidableEq

/-- A document of the `students` collection.  The three identifier fields
are `Option String` (`none` = field absent, as after `clean_dict` removes
empty values); `currentStatus` and `totalOffers` are optional because the
source reads them with `.get(..., default)`.  `companyStatus` and
`selectedCompanies` read through defaults `{}`/`[]`, which behave exactly
like the empty map/list, so they are plain. -/
structure StudentDoc where
  rollNumber : Option String
  name : Option String
  email : Option String
  companyStatus : List (String × CompanyStatusEntry)
  selectedCompanies : List String
  currentStatus : Option String
  totalOffers : Option Int
deriving DecidableEq

/-- The `students` collection: document id → document. -/
abbrev Students := List (String × StudentDoc)

/-! ## Student matching (`student_matcher.py`) -/

/-- The identifier fields of one spreadsheet row, as handed to the
matcher.  An absent dict key is `PyVal.none` (`'rollNumber' in
excel_student` is false exactly when the key is missing, and
`is_empty_value` is true on `None`, so folding absence into `none`
preserves the guards). -/
structure MatchRow where
  rollNumber : PyVal
  name : PyVal
  email : PyVal
deriving DecidableEq

/-- `find_student_by_roll_number` (firebase_operations.py:35): the first
document whose `rollNumber` field equals the query value, with its id. -/
def find_student_by_roll_number (db : Students) (r : String) :
    Option (String × StudentDoc) :=
  db.find? (fun p => decide (p.2.rollNumber = some r))

/-- `find_student_by_name` (firebase_operations.py:85). -/
def find_student_by_name (db : Students) (n : String) :
    Option (String × StudentDoc) :=
  db.find? (fun p => decide (p.2.name = some n))

/-- `find_student_by_email` (firebase_operations.py:60). -/
def find_student_by_email (db : Students) (e : String) :
    Option (String × StudentDoc) :=
  db.find? (fun p => decide (p.2.email = some e))

/-- Priority-1 lookup of `match_student` (student_matcher.py:53): skipped
when the roll number is empty or normalizes to the empty string. -/
def rollAttempt (db : Students) (row : MatchRow) : Option (String × StudentDoc) :=
  if is_empty_value row.rollNumber then Option.none
  else
    let nr := normalize_roll_number row.rollNumber
    if nr = "" then Option.none else find_student_by_roll_number db nr

/-- Priority-2 lookup of `match_student` (student_matcher.py:68). -/
def nameAttempt (db : Students) (row : MatchRow) : Option (String × StudentDoc) :=
  if is_empty_value row.name then Option.none
  else
    let nn := normalize_name row.name
    if nn = "" then Option.none else find_student_by_name db nn

/-- Priority-3 lookup of `match_student` (student_matcher.py:83). -/
def emailAttempt (db : Students) (row : MatchRow) : Option (String × StudentDoc) :=
  if is_empty_value row.email then Option.none
  else
    let ne := normalize_email row.email
    if ne = "" then Option.none else find_student_by_email db ne

/-- `StudentMatcher.match_student` (student_matcher.py:34): roll number,
then name, then email, stopping at the first hit; no hit yields
`(None, 'none', 0)`. -/
def match_student (db : Students) (row : MatchRow) :
    Option (String × StudentDoc) × String × Int :=
  match rollAttempt db row with
  | some m => (some m, "roll_number", 100)
  | Option.none =>
    match nameAttempt db row with
    | some m => (some m, "name", 100)
    | Option.none =>
      match emailAttempt db row with
      | some m => (some m, "email", 100)
      | Option.none => (Option.none, "none", 0)

theorem find?_eq_some_of_unique {α : Type} (l : List α) (p : α → Bool) (a : α)
    (ha : a ∈ l) (hpa : p a = true) (huniq : ∀ b ∈ l, p b = true → b = a) :
    l.find? p = some a := by
  induction l with
  | nil => cases ha
  | cons x xs ih =>
    by_cases hx : p x = true
    · have hxa : x = a := huniq x (List.mem_cons_self x xs) hx
      exact (List.find?_cons_of_pos _ hx).trans (by rw [hxa])
    · rw [List.find?_cons_of_neg _ hx]
      apply ih
      · rcases List.mem_cons.mp ha with rfl | h
        · exact absurd hpa hx
        · exact h
      · intro b hb hpb
        exact huniq b (List.mem_cons_of_mem x hb) hpb

/-! ## C2: match priority and no-hit fallback -/

/-- C2: a row whose normalized roll number is the canonical roll number of
registry entity `A` resolves to `A` with type `'roll_number'` and
confidence 100 even when its normalized name is the canonical name of a
different entity `B`; when no entity matches the roll number, a name hit
is returned with type `'name'`; when no entity matches the roll number or
the name, an email hit is returned with type `'email'`; a row with no hit
on any of the three keys yields `(none, 'none', 0)`. -/
theorem match_student_priority_and_fallback (db : Students) (row : MatchRow) :
    (∀ A B : String × StudentDoc,
      is_empty_value row.rollNumber = false →
      normalize_roll_number row.rollNumber ≠ "" →
      A ∈ db → A.2.rollNumber = some (normalize_roll_number row.rollNumber) →
      (∀ p ∈ db, p.2.rollNumber = some (normalize_roll_number row.rollNumber) → p = A) →
      B ∈ db → B.2.name = some (normalize_name row.name) → B ≠ A →
      match_student db row = (some A, "roll_number", 100)) ∧
    (∀ B : String × StudentDoc,
      (∀ p ∈ db, ¬ p.2.rollNumber = some (normalize_roll_number row.rollNumber)) →
      is_empty_value row.name = false →
      normalize_name row.name ≠ "" →
      B ∈ db → B.2.name = some (normalize_name row.name) →
      (∀ p ∈ db, p.2.name = some (normalize_name row.name) → p = B) →
      match_student db row = (some B, "name", 100)) ∧
    (∀ B : String × StudentDoc,
      (∀ p ∈ db, ¬ p.2.rollNumber = some (normalize_roll_number row.rollNumber)) →
      (∀ p ∈ db, ¬ p.2.name = some (normalize_name row.name)) →
      is_empty_value row.email = false →
      normalize_email row.email ≠ "" →
      B ∈ db → B.2.email = some (normalize_email row.email) →
      (∀ p ∈ db, p.2.email = some (normalize_email row.email) → p = B) →
      match_student db row = (some B, "email", 100)) ∧
    ((∀ p ∈ db, ¬ p.2.rollNumber = some (normalize_roll_number row.rollNumber) ∧
                ¬ p.2.name = some (normalize_name row.name) ∧
                ¬ p.2.email = some (normalize_email row.email)) →
      match_student db row = (Option.none, "none", 0)) := by
  refine ⟨?_, ?_, ?_, ?_⟩
  · intro A B hne hnr hA hAroll huniq _ _ _
    have hfind : find_student_by_roll_number db (normalize_roll_number row.rollNumber) =
        some A := by
      apply find?_eq_some_of_unique _ _ _ hA
      · simp [hAroll]
      · intro b hb hpb
        exact huniq b hb (by simpa using hpb)
    have hatt : rollAttempt db row = some A := by
      simp only [rollAttempt, hne, Bool.false_eq_true, if_false, if_neg hnr, hfind]
    simp [match_student, hatt]
  · intro B hnoroll hne hnn hB hBname huniq
    have hroll : rollAttempt db row = Option.none := by
      unfold rollAttempt
      by_cases h1 : is_empty_value row.rollNumber
      · simp [h1]
      · by_cases h2 : normalize_roll_number row.rollNumber = ""
        · simp [h1, h2]
        · simp only [h1, Bool.false_eq_true, if_false, if_neg h2,
            find_student_by_roll_number]
          rw [List.find?_eq_none]
          intro p hp
          simpa using hnoroll p hp
    have hfind : find_student_by_name db (normalize_name row.name) = some B := by
      apply find?_eq_some_of_unique _ _ _ hB
      · simp [hBname]
      · intro b hb hpb
        exact huniq b hb (by simpa using hpb)
    have hatt : nameAttempt db row = some B := by
      simp only [nameAttempt, hne, Bool.false_eq_true, if_false, if_neg hnn, hfind]
    simp [match_student, hroll, hatt]
  · intro B hnoroll hnoname hne hnm hB hBemail huniq
    have hroll : rollAttempt db row = Option.none := by
      unfold rollAttempt
      by_cases h1 : is_empty_value row.rollNumber
      · simp [h1]
      · by_cases h2 : normalize_roll_number row.rollNumber = ""
        · simp [h1, h2]
        · simp only [h1, Bool.false_eq_true, if_false, if_neg h2,
            find_student_by_roll_number]
          rw [List.find?_eq_none]
          intro p hp
          simpa using hnoroll p hp
    have hname : nameAttempt db row = Option.none := by
      unfold nameAttempt
      by_cases h1 : is_empty_value row.name
      · simp [h1]
      · by_cases h2 : normalize_name row.name = ""
        · simp [h1, h2]
        · simp only [h1, Bool.false_eq_true, if_false, if_neg h2,
            find_student_by_name]
          rw [List.find?_eq_none]
          intro p hp
          simpa using hnoname p hp
    have hfind : find_student_by_email db (normalize_email row.email) = some B := by
      apply find?_eq_some_of_unique _ _ _ hB
      · simp [hBemail]
      · intro b hb hpb
        exact huniq b hb (by simpa using hpb)
    have hatt : emailAttempt db row = some B := by
      simp only [emailAttempt, hne, Bool.false_eq_true, if_false, if_neg hnm, hfind]
    simp [match_student, hroll, hname, hatt]
  · intro hmiss
    have hroll : rollAttempt db row = Option.none := by
      unfold rollAttempt
      by_cases h1 : is_empty_value row.rollNumber
      · simp [h1]
      · by_cases h2 : normalize_roll_number row.rollNumber = ""
        · simp [h1, h2]
        · simp only [h1, Bool.false_eq_true, if_false, if_neg h2,
            find_student_by_roll_number]
          rw [List.find?_eq_none]
          intro p hp
          simpa using (hmiss p hp).1
    have hname : nameAttempt db row = Option.none := by
      unfold nameAttempt
      by_cases h1 : is_empty_value row.name
      · simp [h1]
      · by_cases h2 : normalize_name row.name = ""
        · simp [h1, h2]
        · simp only [h1, Bool.false_eq_true, if_false, if_neg h2,
            find_student_by_name]
          rw [List.find?_eq_none]
          intro p hp
          simpa using (hmiss p hp).2.1
    have hemail : emailAttempt db row = Option.none := by
      unfold emailAttempt
      by_cases h1 : is_empty_value row.email
      · simp [h1]
      · by_cases h2 : normalize_email row.email = ""
        · simp [h1, h2]
        · simp only [h1, Bool.false_eq_true, if_false, if_neg h2,
            find_student_by_email]
          rw [List.find?_eq_none]
          intro p hp
          simpa using (hmiss p hp).2.2
    simp [match_student, hroll, hname, hemail]

/-- A concrete registry document used by the C2 witness. -/
def docA : StudentDoc :=
  ⟨some "R1", some "bob", Option.none, [], [], Option.none, Option.none⟩

/-- A second concrete registry document used by the C2 witness. -/
def docB : StudentDoc :=
  ⟨some "R2", some "alice", Option.none, [], [], Option.none, Option.none⟩

/-- A third concrete registry document, carrying an email, used by the C2
witness. -/
def docD : StudentDoc :=
  ⟨Option.none, some "dan", some "c@x.com", [], [], Option.none, Option.none⟩

/-- Witness for C2: the roll number matches `sA` and the name matches the
different entity `sB`, yet the resolver returns `sA` by roll number; a row
whose roll number and name miss but whose email matches `sD` returns `sD`
by email; a row matching nothing yields `(none, 'none', 0)`. -/
theorem match_student_priority_and_fallback_witness :
    match_student [("sA", docA), ("sB", docB)] ⟨.str "r1", .str "Alice", .none⟩ =
      (some ("sA", docA), "roll_number", 100) ∧
    match_student [("sA", docA), ("sD", docD)]
      ⟨.str "zz", .str "zz", .str " C@x.com "⟩ = (some ("sD", docD), "email", 100) ∧
    match_student [("sA", docA), ("sB", docB)] ⟨.str "zz", .str "zz", .str "z@z"⟩ =
      (Option.none, "none", 0) :=
  ⟨(match_student_priority_and_fallback [("sA", docA), ("sB", docB)]
      ⟨.str "r1", .str "Alice", .none⟩).1 ("sA", docA) ("sB", docB)
      (by decide) (by decide) (by decide) (by decide) (by decide)
      (by decide) (by decide) (by decide),
   (match_student_priority_and_fallback [("sA", docA), ("sD", docD)]
      ⟨.str "zz", .str "zz", .str " C@x.com "⟩).2.2.1 ("sD", docD)
      (by decide) (by decide) (by decide) (by decide) (by decide)
      (by decide) (by decide),
   (match_student_priority_and_fallback [("sA", docA), ("sB", docB)]
      ⟨.str "zz", .str "zz", .str "z@z"⟩).2.2.2 (by decide)⟩

/-! ## Firestore write batches (`firebase_operations.py`)

`batch.update`/`batch.set` queue operations that are applied only at
`batch.commit()`; inside the loops of the source, document reads
(`student_ref.get()`) see the committed state, not the pending queue, and
a commit is issued every `FIRESTORE_BATCH_SIZE` queued operations and once
at the end. -/

/-- The fields an update may write; `none` = field not in `update_data`.
A `batch.update` overwrites exactly the listed fields (the server
timestamp `updatedAt` is not modelled). -/
structure StudentPatch where
  rollNumber : Option String
  name : Option String
  email : Option String
  companyStatus : Option (List (String × CompanyStatusEntry))
  selectedCompanies : Option (List String)
  currentStatus : Option String
  totalOffers : Option Int
deriving DecidableEq

/-- Apply an update's field list to a document. -/
def applyPatch (d : StudentDoc) (p : StudentPatch) : StudentDoc where
  rollNumber := match p.rollNumber with | some v => some v | Option.none => d.rollNumber
  name := match p.name with | some v => some v | Option.none => d.name
  email := match p.email with | some v => some v | Option.none => d.email
  companyStatus := match p.companyStatus with | some m => m | Option.none => d.companyStatus
  selectedCompanies :=
    match p.selectedCompanies with | some l => l | Option.none => d.selectedCompanies
  currentStatus := match p.currentStatus with | some v => some v | Option.none => d.currentStatus
  totalOffers := match p.totalOffers with | some n => some n | Option.none => d.totalOffers

/-- A queued batch operation on the `students` collection. -/
inductive WriteOp where
  | setDoc (id : String) (doc : StudentDoc)
  | updateDoc (id : String) (patch : StudentPatch)
deriving DecidableEq

/-- The document id an operation writes. -/
def WriteOp.target : WriteOp → String
  | .setDoc id _ => id
  | .updateDoc id _ => id

/-- Apply one committed operation.  `batch.update` on a missing document
makes the real commit fail; the flows below only ever update documents
they just read, so the `none` case is unreachable and modelled as a
no-op. -/
def applyOp (m : Students) : WriteOp → Students
  | .setDoc id d => aset m id d
  | .updateDoc id p =>
    match alookup m id with
    | some d => aset m id (applyPatch d p)
    | Option.none => m

/-- Commit a queue of operations in order. -/
def applyOps (m : Students) (ops : List WriteOp) : Students :=
  ops.foldl applyOp m

theorem applyOps_append_one (m : Students) (ops : List WriteOp) (op : WriteOp) :
    applyOps m (ops ++ [op]) = applyOp (applyOps m ops) op := by
  simp [applyOps, List.foldl_append]

theorem alookup_applyOp_ne (m : Students) (op : WriteOp) (id : String)
    (h : op.target ≠ id) : alookup (applyOp m op) id = alookup m id := by
  match op with
  | .setDoc tid d =>
    exact alookup_aset_ne m tid id d (fun hh => h hh.symm)
  | .updateDoc tid p =>
    simp only [applyOp]
    match alookup m tid with
    | some d => exact alookup_aset_ne m tid id _ (fun hh => h hh.symm)
    | Option.none => rfl

theorem alookup_applyOp_update_ne (m : Students) (sid : String) (p : StudentPatch)
    (id : String) (h : sid ≠ id) :
    alookup (applyOp m (WriteOp.updateDoc sid p)) id = alookup m id :=
  alookup_applyOp_ne m _ id h

theorem alookup_applyOp_set_ne (m : Students) (sid : String) (dd : StudentDoc)
    (id : String) (h : sid ≠ id) :
    alookup (applyOp m (WriteOp.setDoc sid dd)) id = alookup m id :=
  alookup_applyOp_ne m _ id h

/-! ## `update_students` (firebase_operations.py:426) -/

/-- One element of `students_data`: the matched or generated student id
together with the identifier fields of the row's `data` dict (extra
spreadsheet columns are not read by `update_students`). -/
structure StudentRow where
  id : String
  rollNumber : PyVal
  name : PyVal
  email : PyVal
deriving DecidableEq

/-- The backfill of one identifier field (firebase_operations.py:464):
written only when missing or falsy in the stored document and present and
truthy in the row, with the normalized row value. -/
def backfillField (old : Option String) (raw : PyVal) (norm : PyVal → String) :
    Option String :=
  if old = Option.none ∨ old = some "" then
    if raw.truthy then some (norm raw) else Option.none
  else Option.none

/-- The `update_data` built for an existing student
(firebase_operations.py:462-500). -/
def mkUpdatePatch (d : StudentDoc) (r : StudentRow)
    (company_year_id company_name : String) (year round_number : Int)
    (is_final : Bool) : StudentPatch where
  rollNumber := backfillField d.rollNumber r.rollNumber normalize_roll_number
  name := backfillField d.name r.name normalize_name
  email := backfillField d.email r.email normalize_email
  companyStatus := some (aset d.companyStatus company_year_id
    ⟨if is_final then "selected" else "in_process", round_number,
     if is_final then some true else Option.none, year⟩)
  selectedCompanies :=
    if is_final then
      some (if company_name ∈ d.selectedCompanies then d.selectedCompanies
            else d.selectedCompanies ++ [company_name])
    else Option.none
  currentStatus := if is_final then some "placed" else Option.none
  totalOffers := if is_final then some (d.totalOffers.getD 0 + 1) else Option.none

/-- The per-document effect of the existing-student branch. -/
def updateExistingDoc (d : StudentDoc) (r : StudentRow)
    (company_year_id company_name : String) (year round_number : Int)
    (is_final : Bool) : StudentDoc :=
  applyPatch d (mkUpdatePatch d r company_year_id company_name year round_number is_final)

/-- `clean_dict` (excel_utils.py:194) on the freshly built student dict:
of its fields only the three identifier strings can be empty, so only they
are subject to removal. -/
def cleanField (v : String) : Option String :=
  if is_empty_value (.str v) then Option.none else some v

/-- The new-student document (firebase_operations.py:505-527). -/
def newStudentDoc (r : StudentRow) (company_year_id company_name : String)
    (year round_number : Int) (is_final : Bool) : StudentDoc where
  rollNumber :=
    cleanField (if r.rollNumber.truthy then normalize_roll_number r.rollNumber else "")
  name := cleanField (if r.name.truthy then normalize_name r.name else "")
  email := cleanField (if r.email.truthy then normalize_email r.email else "")
  companyStatus := [(company_year_id,
    ⟨if is_final then "selected" else "in_process", round_number,
     if is_final then some true else Option.none, year⟩)]
  selectedCompanies := if is_final then [company_name] else []
  currentStatus := some (if is_final then "placed" else "not_placed")
  totalOffers := some (if is_final then (1 : Int) else 0)

/-- The loop of `update_students`: reads against the committed state,
queues one operation per row, commits whenever the queue reaches the batch
size and once at the end. -/
def update_students_go (bs : Nat) (company_year_id company_name : String)
    (year round_number : Int) (is_final : Bool) :
    List StudentRow → Students → List WriteOp → Nat → Students
  | [], committed, pending, _ => applyOps committed pending
  | r :: rs, committed, pending, cnt =>
    let op : WriteOp :=
      match alookup committed r.id with
      | some d => .updateDoc r.id
          (mkUpdatePatch d r company_year_id company_name year round_number is_final)
      | Option.none => .setDoc r.id
          (newStudentDoc r company_year_id company_name year round_number is_final)
    if bs ≤ cnt + 1 then
      update_students_go bs company_year_id company_name year round_number is_final
        rs (applyOps committed (pending ++ [op])) [] 0
    else
      update_students_go bs company_year_id company_name year round_number is_final
        rs committed (pending ++ [op]) (cnt + 1)

/-- `FirestoreOperations.update_students`: `bs` is
`FIRESTORE_BATCH_SIZE`. -/
def update_students (bs : Nat) (students_data : List StudentRow)
    (students : Students) (company_year_id company_name : String)
    (year round_number : Int) (is_final : Bool) : Students :=
  update_students_go bs company_year_id company_name year round_number is_final
    students_data students [] 0

/-! ## Elimination marking (firebase_operations.py:240 and :702) -/

/-- The in-place mutation of one `companyStatus` entry in
`mark_eliminated_students`: status becomes `not_selected`, the
final-selection flag `False`, round reached and year untouched. -/
def elimEntryUpdate (e : CompanyStatusEntry) : CompanyStatusEntry :=
  ⟨"not_selected", e.roundReached, some false, e.year⟩

/-- The loop of `mark_eliminated_students`: students without a document or
without a `companyStatus` entry for the drive are skipped without queuing
an operation (the source's `year` and `round_reached` arguments only feed
logging and are omitted). -/
def mark_go (bs : Nat) (company_year_id : String) :
    List String → Students → List WriteOp → Nat → Students
  | [], committed, pending, _ => applyOps committed pending
  | sid :: rest, committed, pending, cnt =>
    match alookup committed sid with
    | Option.none => mark_go bs company_year_id rest committed pending cnt
    | some d =>
      match alookup d.companyStatus company_year_id with
      | Option.none => mark_go bs company_year_id rest committed pending cnt
      | some e =>
        let op : WriteOp := .updateDoc sid
          ⟨Option.none, Option.none, Option.none,
           some (aset d.companyStatus company_year_id (elimEntryUpdate e)),
           Option.none, Option.none, Option.none⟩
        if bs ≤ cnt + 1 then
          mark_go bs company_year_id rest (applyOps committed (pending ++ [op])) [] 0
        else
          mark_go bs company_year_id rest committed (pending ++ [op]) (cnt + 1)

/-- `FirestoreOperations.mark_eliminated_students`. -/
def mark_eliminated_students (bs : Nat) (students : Students)
    (eliminated_student_ids : List String) (company_year_id : String) : Students :=
  if eliminated_student_ids = [] then students
  else mark_go bs company_year_id eliminated_student_ids students [] 0

/-- A document of one round's `data` subcollection; only its `studentId`
field is read by the elimination logic (`rowData` and `status` are never
inspected there). -/
structure RowDoc where
  studentId : Option String
deriving DecidableEq

/-- Round id → that round's `data` documents. -/
abbrev RoundsData := List (String × List RowDoc)

/-- `get_previous_round_students` (firebase_operations.py:200): the
`studentId` values of round `round_number - 1`'s row documents, keeping
only present and truthy ones; empty when `round_number <= 1` or the round
is absent. -/
def get_previous_round_students (roundsData : RoundsData)
    (company_year_id : String) (round_number : Int) : List String :=
  if round_number ≤ 1 then []
  else
    match alookup roundsData (generate_round_id company_year_id (round_number - 1)) with
    | Option.none => []
    | some docs => docs.filterMap (fun rd =>
        match rd.studentId with
        | some sid => if sid = "" then Option.none else some sid
        | Option.none => Option.none)

/-- The eliminated list computed in `process_round_upload`
(firebase_operations.py:706-707): previous-round ids absent from the
current upload. -/
def eliminated_candidates (roundsData : RoundsData) (company_year_id : String)
    (round_number : Int) (currentIds : List String) : List String :=
  (get_previous_round_students roundsData company_year_id round_number).filter
    (fun sid => decide (¬ sid ∈ currentIds))

/-- Step 2.5 of `process_round_upload` (firebase_operations.py:702-718):
elimination marking, only for rounds after the first. -/
def elimination_step (bs : Nat) (students : Students) (roundsData : RoundsData)
    (company_year_id : String) (round_number : Int)
    (currentIds : List String) : Students :=
  if 1 < round_number then
    let elim := eliminated_candidates roundsData company_year_id round_number currentIds
    if elim = [] then students
    else mark_eliminated_students bs students elim company_year_id
  else students

/-! ## Company statistics (firebase_operations.py:552) -/

/-- The two fields of a company document that
`update_company_statistics` can write (its other fields are written
elsewhere and untouched here; `updatedAt` is not modelled).  `none` models
an absent field, the base that `firestore.Increment` treats as 0. -/
structure CompanyDoc where
  totalApplied : Option Int
  totalPlaced : Option Int
deriving DecidableEq

/-- `FirestoreOperations.update_company_statistics`: `totalApplied` is set
(not incremented) only on round 1; `totalPlaced` is incremented when
positive. -/
def update_company_statistics (c : CompanyDoc) (total_applied total_placed : Int)
    (round_number : Int) : CompanyDoc :=
  let c1 := if round_number = 1 then { c with totalApplied := some total_applied } else c
  if 0 < total_placed then
    { c1 with totalPlaced := some (c1.totalPlaced.getD 0 + total_placed) }
  else c1

/-! ## Yearly analytics (firebase_operations.py:584) -/

/-- One entry of the year document's `companyWise` map. -/
structure CWEntry where
  companyName : String
  placed : Int
  status : String
deriving DecidableEq

/-- A document of the `years` collection.  Numeric fields absent from the
stored document are modelled as 0, matching `firestore.Increment`'s
behaviour on missing fields. -/
structure YearDoc where
  totalCompanies : Int
  completedCompanies : Int
  runningCompanies : Int
  totalPlaced : Int
  totalStudentsParticipated : Int
  companyWise : List (String × CWEntry)
deriving DecidableEq

/-- `FirestoreOperations.update_yearly_analytics`.  The final
`set(update_data, merge=True)` deep-merges `companyWise` (read, modified
and written back whole, so the merged result is exactly the modified map)
and applies the `Increment`s to the stored counters. -/
def update_yearly_analytics (ydoc : Option YearDoc)
    (company_year_id company_name : String) (placed_count : Int)
    (is_new_company is_final : Bool) : YearDoc :=
  let base := match ydoc with
    | some d => d
    | Option.none => ⟨0, 0, 0, 0, 0, []⟩
  let previous_status := (alookup base.companyWise company_year_id).map
    (fun e => e.status)
  let cw := match alookup base.companyWise company_year_id with
    | some e => aset base.companyWise company_year_id
        ⟨e.companyName, e.placed + placed_count,
         if is_final then "completed" else e.status⟩
    | Option.none => base.companyWise ++ [(company_year_id,
        ⟨company_name, placed_count, if is_final then "completed" else "running"⟩)]
  let d1 := { base with companyWise := cw,
                        totalPlaced := base.totalPlaced + placed_count }
  if is_new_company then
    if is_final then
      { d1 with totalCompanies := d1.totalCompanies + 1,
                completedCompanies := d1.completedCompanies + 1 }
    else
      { d1 with totalCompanies := d1.totalCompanies + 1,
                runningCompanies := d1.runningCompanies + 1 }
  else
    if is_final ∧ previous_status = some "running" then
      { d1 with runningCompanies := d1.runningCompanies - 1,
                completedCompanies := d1.completedCompanies + 1 }
    else d1

/-! ## `merge_student_data` (student_matcher.py:101) -/

/-- One field of the merge: filled only if empty in the existing data and
non-empty in the new data. -/
def mergeField (old new_value : PyVal) : PyVal :=
  if is_empty_value old && !(is_empty_value new_value) then new_value else old

/-- `StudentMatcher.merge_student_data`: fill missing identifier fields,
never overwrite existing non-empty ones. -/
def merge_student_data (existing new_data : MatchRow) : MatchRow :=
  ⟨mergeField existing.rollNumber new_data.rollNumber,
   mergeField existing.name new_data.name,
   mergeField existing.email new_data.email⟩

/-! ## C5: identifier fields are backfilled, never overwritten -/

theorem backfillField_of_nonempty (old : Option String) (raw : PyVal)
    (norm : PyVal → String) (s : String) (h : old = some s) (hs : s ≠ "") :
    backfillField old raw norm = Option.none := by
  rw [backfillField, if_neg]
  rintro (h1 | h1) <;> rw [h] at h1
  · cases h1
  · exact hs (Option.some.inj h1)

/-- C5: updating an existing (matched) student never changes a stored
non-empty identifier field (rollNumber, name, email); a field that is
missing or empty is backfilled with the normalized value of a truthy
incoming field — both for the write in `update_students` and for the
in-memory `merge_student_data`. -/
theorem identifier_backfill_no_overwrite (d : StudentDoc) (r : StudentRow)
    (cyid cn : String) (year rn : Int) (final : Bool) :
    (∀ s, d.rollNumber = some s → s ≠ "" →
      (updateExistingDoc d r cyid cn year rn final).rollNumber = some s) ∧
    (∀ s, d.name = some s → s ≠ "" →
      (updateExistingDoc d r cyid cn year rn final).name = some s) ∧
    (∀ s, d.email = some s → s ≠ "" →
      (updateExistingDoc d r cyid cn year rn final).email = some s) ∧
    ((d.rollNumber = Option.none ∨ d.rollNumber = some "") → r.rollNumber.truthy = true →
      (updateExistingDoc d r cyid cn year rn final).rollNumber =
        some (normalize_roll_number r.rollNumber)) ∧
    ((d.name = Option.none ∨ d.name = some "") → r.name.truthy = true →
      (updateExistingDoc d r cyid cn year rn final).name =
        some (normalize_name r.name)) ∧
    ((d.email = Option.none ∨ d.email = some "") → r.email.truthy = true →
      (updateExistingDoc d r cyid cn year rn final).email =
        some (normalize_email r.email)) ∧
    (∀ ex nw : MatchRow, is_empty_value ex.rollNumber = false →
      (merge_student_data ex nw).rollNumber = ex.rollNumber) ∧
    (∀ ex nw : MatchRow, is_empty_value ex.name = false →
      (merge_student_data ex nw).name = ex.name) ∧
    (∀ ex nw : MatchRow, is_empty_value ex.email = false →
      (merge_student_data ex nw).email = ex.email) := by
  refine ⟨?_, ?_, ?_, ?_, ?_, ?_, ?_, ?_, ?_⟩
  · intro s h hs
    simp [updateExistingDoc, applyPatch, mkUpdatePatch, h,
      backfillField_of_nonempty (some s) r.rollNumber normalize_roll_number s rfl hs]
  · intro s h hs
    simp [updateExistingDoc, applyPatch, mkUpdatePatch, h,
      backfillField_of_nonempty (some s) r.name normalize_name s rfl hs]
  · intro s h hs
    simp [updateExistingDoc, applyPatch, mkUpdatePatch, h,
      backfillField_of_nonempty (some s) r.email normalize_email s rfl hs]
  · intro h ht
    simp [updateExistingDoc, applyPatch, mkUpdatePatch, backfillField, h, ht]
  · intro h ht
    simp [updateExistingDoc, applyPatch, mkUpdatePatch, backfillField, h, ht]
  · intro h ht
    simp [updateExistingDoc, applyPatch, mkUpdatePatch, backfillField, h, ht]
  · intro ex nw h
    simp [merge_student_data, mergeField, h]
  · intro ex nw h
    simp [merge_student_data, mergeField, h]
  · intro ex nw h
    simp [merge_student_data, mergeField, h]

/-- Witness for C5: a stored name `"john doe"` survives a row carrying
`"Jonathan Doe"`, and an absent roll number is backfilled normalized. -/
theorem identifier_backfill_no_overwrite_witness :
    (updateExistingDoc
      ⟨Option.none, some "john doe", Option.none, [], [], Option.none, Option.none⟩
      ⟨"s1", .str " r 1 ", .str "Jonathan Doe", .none⟩
      "Acme2025" "Acme" 2025 1 false).name = some "john doe" ∧
    (updateExistingDoc
      ⟨Option.none, some "john doe", Option.none, [], [], Option.none, Option.none⟩
      ⟨"s1", .str " r 1 ", .str "Jonathan Doe", .none⟩
      "Acme2025" "Acme" 2025 1 false).rollNumber = some "R1" ∧
    (merge_student_data ⟨.none, .str "john doe", .none⟩
      ⟨.none, .str "Jonathan Doe", .none⟩).name = .str "john doe" :=
  ⟨(identifier_backfill_no_overwrite
      ⟨Option.none, some "john doe", Option.none, [], [], Option.none, Option.none⟩
      ⟨"s1", .str " r 1 ", .str "Jonathan Doe", .none⟩
      "Acme2025" "Acme" 2025 1 false).2.1 "john doe" rfl (by decide),
   ((identifier_backfill_no_overwrite
      ⟨Option.none, some "john doe", Option.none, [], [], Option.none, Option.none⟩
      ⟨"s1", .str " r 1 ", .str "Jonathan Doe", .none⟩
      "Acme2025" "Acme" 2025 1 false).2.2.2.1 (Or.inl rfl) (by decide)).trans
      (by decide),
   (identifier_backfill_no_overwrite
      ⟨Option.none, some "x", Option.none, [], [], Option.none, Option.none⟩
      ⟨"s1", .none, .none, .none⟩ "" "" 0 0 false).2.2.2.2.2.2.2.1
      ⟨.none, .str "john doe", .none⟩ ⟨.none, .str "Jonathan Doe", .none⟩
      (by decide)⟩

/-! ## C7: `totalApplied` is written only on round 1 -/

/-- C7: for every round other than 1 the company-statistics update leaves
`totalApplied` unchanged regardless of the upload's row count, and on
round 1 it sets (not increments) it. -/
theorem totalApplied_round1_only (c : CompanyDoc)
    (total_applied total_placed round_number : Int) :
    (round_number ≠ 1 →
      (update_company_statistics c total_applied total_placed round_number).totalApplied =
        c.totalApplied) ∧
    (round_number = 1 →
      (update_company_statistics c total_applied total_placed round_number).totalApplied =
        some total_applied) := by
  constructor <;> intro h <;> by_cases hp : 0 < total_placed <;>
    simp [update_company_statistics, h, hp]

/-- Witness for C7: round 2 with 12 rows leaves `totalApplied = 30` from
round 1; round 1 sets it. -/
theorem totalApplied_round1_only_witness :
    (update_company_statistics ⟨some 30, some 0⟩ 12 0 2).totalApplied = some 30 ∧
    (update_company_statistics ⟨Option.none, Option.none⟩ 30 0 1).totalApplied =
      some 30 :=
  ⟨(totalApplied_round1_only ⟨some 30, some 0⟩ 12 0 2).1 (by decide),
   (totalApplied_round1_only ⟨Option.none, Option.none⟩ 30 0 1).2 rfl⟩

/-! ## C6: yearly-analytics counters -/

/-- The invariant of §3 of the spec: running + completed = total. -/
def yearCountersConsistent (d : YearDoc) : Prop :=
  d.runningCompanies + d.completedCompanies = d.totalCompanies

theorem alookup_append_right {α : Type} (m : List (String × α)) (k : String) (v : α)
    (h : alookup m k = Option.none) : alookup (m ++ [(k, v)]) k = some v := by
  induction m with
  | nil => simp [alookup]
  | cons p m ih =>
    simp only [alookup] at h ⊢
    by_cases hp : p.1 = k
    · rw [if_pos hp] at h; cases h
    · rw [if_neg hp] at h ⊢
      exact ih h

theorem uya_counters_new (d : YearDoc) (cyid cn : String) (placed : Int)
    (isFinal : Bool) :
    (update_yearly_analytics (some d) cyid cn placed true isFinal).totalCompanies =
      d.totalCompanies + 1 ∧
    (isFinal = true →
      (update_yearly_analytics (some d) cyid cn placed true isFinal).completedCompanies =
        d.completedCompanies + 1 ∧
      (update_yearly_analytics (some d) cyid cn placed true isFinal).runningCompanies =
        d.runningCompanies) ∧
    (isFinal = false →
      (update_yearly_analytics (some d) cyid cn placed true isFinal).runningCompanies =
        d.runningCompanies + 1 ∧
      (update_yearly_analytics (some d) cyid cn placed true isFinal).completedCompanies =
        d.completedCompanies) := by
  cases isFinal <;> simp [update_yearly_analytics]

theorem uya_counters_existing_run (d : YearDoc) (cyid cn : String) (placed : Int)
    (hs : (alookup d.companyWise cyid).map (fun e => e.status) = some "running") :
    (update_yearly_analytics (some d) cyid cn placed false true).runningCompanies =
      d.runningCompanies - 1 ∧
    (update_yearly_analytics (some d) cyid cn placed false true).completedCompanies =
      d.completedCompanies + 1 ∧
    (update_yearly_analytics (some d) cyid cn placed false true).totalCompanies =
      d.totalCompanies := by
  simp only [update_yearly_analytics]
  rw [if_neg (by simp), if_pos ⟨by trivial, hs⟩]
  exact ⟨rfl, rfl, rfl⟩

theorem uya_counters_existing_norun (d : YearDoc) (cyid cn : String) (placed : Int)
    (isFinal : Bool)
    (hns : ¬(isFinal = true ∧
      (alookup d.companyWise cyid).map (fun e => e.status) = some "running")) :
    (update_yearly_analytics (some d) cyid cn placed false isFinal).runningCompanies =
      d.runningCompanies ∧
    (update_yearly_analytics (some d) cyid cn placed false isFinal).completedCompanies =
      d.completedCompanies ∧
    (update_yearly_analytics (some d) cyid cn placed false isFinal).totalCompanies =
      d.totalCompanies := by
  simp only [update_yearly_analytics]
  rw [if_neg (by simp), if_neg hns]
  exact ⟨rfl, rfl, rfl⟩

/-- After a final call for drive `cyid`, the year document's company map
records that drive as completed. -/
theorem cw_status_after_final (d : YearDoc) (cyid cn : String) (p : Int) :
    (alookup (update_yearly_analytics (some d) cyid cn p false true).companyWise
      cyid).map (fun e => e.status) = some "completed" := by
  simp only [update_yearly_analytics]
  cases h : alookup d.companyWise cyid with
  | some e =>
    simp only [h]
    split_ifs <;> simp [alookup_aset_self]
  | none =>
    simp only [h]
    split_ifs <;> simp [alookup_append_right _ _ _ h]

/-- C6: every call preserves running + completed = total; a new drive
increments total and exactly one of running/completed; an existing drive
moves one count from running to completed exactly when the call is final
and the previously stored status was `running`; hence a second consecutive
final upload for the same drive changes none of the three counters. -/
theorem yearly_analytics_counters :
    (∀ ydoc cyid cn placed isNew isFinal,
      (∀ d, ydoc = some d → yearCountersConsistent d) →
      yearCountersConsistent
        (update_yearly_analytics ydoc cyid cn placed isNew isFinal)) ∧
    (∀ d cyid cn placed isFinal,
      (update_yearly_analytics (some d) cyid cn placed true isFinal).totalCompanies =
        d.totalCompanies + 1 ∧
      (isFinal = true →
        (update_yearly_analytics (some d) cyid cn placed true isFinal).completedCompanies =
          d.completedCompanies + 1 ∧
        (update_yearly_analytics (some d) cyid cn placed true isFinal).runningCompanies =
          d.runningCompanies) ∧
      (isFinal = false →
        (update_yearly_analytics (some d) cyid cn placed true isFinal).runningCompanies =
          d.runningCompanies + 1 ∧
        (update_yearly_analytics (some d) cyid cn placed true isFinal).completedCompanies =
          d.completedCompanies)) ∧
    (∀ d cyid cn placed isFinal,
      (isFinal = true →
        (alookup d.companyWise cyid).map (fun e => e.status) = some "running" →
        (update_yearly_analytics (some d) cyid cn placed false isFinal).runningCompanies =
          d.runningCompanies - 1 ∧
        (update_yearly_analytics (some d) cyid cn placed false isFinal).completedCompanies =
          d.completedCompanies + 1 ∧
        (update_yearly_analytics (some d) cyid cn placed false isFinal).totalCompanies =
          d.totalCompanies) ∧
      (¬(isFinal = true ∧
          (alookup d.companyWise cyid).map (fun e => e.status) = some "running") →
        (update_yearly_analytics (some d) cyid cn placed false isFinal).runningCompanies =
          d.runningCompanies ∧
        (update_yearly_analytics (some d) cyid cn placed false isFinal).completedCompanies =
          d.completedCompanies ∧
        (update_yearly_analytics (some d) cyid cn placed false isFinal).totalCompanies =
          d.totalCompanies)) ∧
    (∀ d cyid cn p1 p2,
      (update_yearly_analytics
        (some (update_yearly_analytics (some d) cyid cn p1 false true))
        cyid cn p2 false true).runningCompanies =
        (update_yearly_analytics (some d) cyid cn p1 false true).runningCompanies ∧
      (update_yearly_analytics
        (some (update_yearly_analytics (some d) cyid cn p1 false true))
        cyid cn p2 false true).completedCompanies =
        (update_yearly_analytics (some d) cyid cn p1 false true).completedCompanies ∧
      (update_yearly_analytics
        (some (update_yearly_analytics (some d) cyid cn p1 false true))
        cyid cn p2 false true).totalCompanies =
        (update_yearly_analytics (some d) cyid cn p1 false true).totalCompanies) := by
  refine ⟨?_, ?_, ?_, ?_⟩
  · intro ydoc cyid cn placed isNew isFinal hc
    cases ydoc with
    | none =>
      cases isNew <;> cases isFinal <;>
        simp [update_yearly_analytics, yearCountersConsistent, alookup]
    | some d =>
      have hd := hc d rfl
      simp only [yearCountersConsistent] at hd ⊢
      cases isNew with
      | true =>
        obtain ⟨ht, hf, hnf⟩ := uya_counters_new d cyid cn placed isFinal
        cases isFinal with
        | true => obtain ⟨h2, h3⟩ := hf rfl; omega
        | false => obtain ⟨h2, h3⟩ := hnf rfl; omega
      | false =>
        by_cases hr : isFinal = true ∧
            (alookup d.companyWise cyid).map (fun e => e.status) = some "running"
        · obtain ⟨rfl, hs⟩ := hr
          obtain ⟨h2, h3, h4⟩ := uya_counters_existing_run d cyid cn placed hs
          omega
        · obtain ⟨h2, h3, h4⟩ := uya_counters_existing_norun d cyid cn placed isFinal hr
          omega
  · intro d cyid cn placed isFinal
    exact uya_counters_new d cyid cn placed isFinal
  · intro d cyid cn placed isFinal
    refine ⟨fun hf hs => ?_, fun hns => uya_counters_existing_norun d cyid cn placed isFinal hns⟩
    cases hf
    exact uya_counters_existing_run d cyid cn placed hs
  · intro d cyid cn p1 p2
    apply uya_counters_existing_norun
    rintro ⟨-, hrun⟩
    rw [cw_status_after_final d cyid cn p1] at hrun
    exact absurd (Option.some.inj hrun) (by decide)

/-- Witness for C6 at concrete year documents. -/
theorem yearly_analytics_counters_witness :
    yearCountersConsistent
      (update_yearly_analytics
        (some ⟨3, 1, 2, 10, 0, [("Acme2025", ⟨"Acme", 0, "running"⟩)]⟩)
        "Acme2025" "Acme" 2 false true) ∧
    (update_yearly_analytics (some ⟨3, 1, 2, 10, 0, []⟩)
      "Beta2025" "Beta" 0 true false).totalCompanies = 4 ∧
    (update_yearly_analytics
      (some (update_yearly_analytics
        (some ⟨3, 1, 2, 10, 0, [("Acme2025", ⟨"Acme", 0, "running"⟩)]⟩)
        "Acme2025" "Acme" 2 false true))
      "Acme2025" "Acme" 1 false true).runningCompanies =
      (update_yearly_analytics
        (some ⟨3, 1, 2, 10, 0, [("Acme2025", ⟨"Acme", 0, "running"⟩)]⟩)
        "Acme2025" "Acme" 2 false true).runningCompanies :=
  ⟨yearly_analytics_counters.1
      (some ⟨3, 1, 2, 10, 0, [("Acme2025", ⟨"Acme", 0, "running"⟩)]⟩)
      "Acme2025" "Acme" 2 false true
      (fun d hd => by cases hd; unfold yearCountersConsistent; decide),
   ((yearly_analytics_counters.2.1 ⟨3, 1, 2, 10, 0, []⟩ "Beta2025" "Beta" 0 false).1).trans
      (by decide),
   (yearly_analytics_counters.2.2.2
      ⟨3, 1, 2, 10, 0, [("Acme2025", ⟨"Acme", 0, "running"⟩)]⟩
      "Acme2025" "Acme" 2 1).1⟩

/-! ## C10 / C3: behaviour of elimination marking -/

theorem applyOps_nil (m : Students) : applyOps m [] = m := rfl

/-- Frame lemma for the elimination loop: a document that is never the
target of a queued update (because its id is not in the list, or because
its stored form has no `companyStatus` entry for the drive) keeps its
initial value through every batch. -/
theorem mark_go_frame (bs : Nat) (cyid id : String) (v0 : Option StudentDoc) :
    ∀ (sids : List String) (committed : Students) (pending : List WriteOp) (cnt : Nat),
    alookup committed id = v0 →
    alookup (applyOps committed pending) id = v0 →
    ((∀ s ∈ sids, s ≠ id) ∨
      (∀ d, v0 = some d → alookup d.companyStatus cyid = Option.none)) →
    alookup (mark_go bs cyid sids committed pending cnt) id = v0 := by
  intro sids
  induction sids with
  | nil =>
    intro committed pending cnt h1 h2 h3
    exact h2
  | cons sid rest ih =>
    intro committed pending cnt h1 h2 h3
    have h3r : (∀ s ∈ rest, s ≠ id) ∨
        (∀ d, v0 = some d → alookup d.companyStatus cyid = Option.none) :=
      h3.imp_left (fun h s hs => h s (List.mem_cons_of_mem _ hs))
    simp only [mark_go]
    cases hdoc : alookup committed sid with
    | none => exact ih committed pending cnt h1 h2 h3r
    | some d =>
      cases hcs : alookup d.companyStatus cyid with
      | none =>
        simp only [hcs]
        exact ih committed pending cnt h1 h2 h3r
      | some e =>
        simp only [hcs]
        have hne : sid ≠ id := by
          intro heq
          subst heq
          rw [h1] at hdoc
          rcases h3 with h3 | h3
          · exact h3 sid (List.mem_cons_self _ _) rfl
          · rw [h3 d hdoc] at hcs
            cases hcs
        have hstep : alookup (applyOps committed (pending ++
            [WriteOp.updateDoc sid
              ⟨Option.none, Option.none, Option.none,
               some (aset d.companyStatus cyid (elimEntryUpdate e)),
               Option.none, Option.none, Option.none⟩])) id = v0 := by
          rw [applyOps_append_one, alookup_applyOp_update_ne _ _ _ _ hne, h2]
        by_cases hb : bs ≤ cnt + 1
        · rw [if_pos hb]
          exact ih _ [] 0 hstep hstep h3r
        · rw [if_neg hb]
          exact ih committed _ (cnt + 1) h1 hstep h3r

/-- C10: during elimination marking, a student whose document exists but
has no `companyStatus` entry for the drive is silently skipped — the
document is left entirely unchanged — and so is every document whose id is
not in the eliminated list. -/
theorem mark_eliminated_skips_missing_entry :
    (∀ (bs : Nat) (students : Students) (elim : List String) (cyid id : String)
        (d : StudentDoc),
      alookup students id = some d →
      alookup d.companyStatus cyid = Option.none →
      alookup (mark_eliminated_students bs students elim cyid) id = some d) ∧
    (∀ (bs : Nat) (students : Students) (elim : List String) (cyid id : String),
      ¬ id ∈ elim →
      alookup (mark_eliminated_students bs students elim cyid) id =
        alookup students id) := by
  constructor
  · intro bs students elim cyid id d h1 h2
    unfold mark_eliminated_students
    split_ifs with he
    · exact h1
    · refine mark_go_frame bs cyid id (some d) elim students [] 0 h1 h1 (Or.inr ?_)
      intro d' hd'
      cases Option.some.inj hd'
      exact h2
  · intro bs students elim cyid id hn
    unfold mark_eliminated_students
    split_ifs with he
    · rfl
    · exact mark_go_frame bs cyid id (alookup students id) elim students [] 0 rfl rfl
        (Or.inl (fun s hs heq => hn (heq ▸ hs)))

/-- A concrete document whose `companyStatus` has an entry for a different
drive only. -/
def docC : StudentDoc :=
  ⟨some "R3", some "carol", Option.none,
   [("Other2025", ⟨"in_process", 1, Option.none, 2025⟩)], [],
   some "not_placed", some 0⟩

/-- Witness for C10: `s1` has no entry for `Acme2025` and survives its own
elimination unchanged; `s1` is also untouched when only `s2` is
eliminated. -/
theorem mark_eliminated_skips_missing_entry_witness :
    alookup (mark_eliminated_students 500 [("s1", docC)] ["s1"] "Acme2025") "s1" =
      some docC ∧
    alookup (mark_eliminated_students 500 [("s1", docC)] ["s2"] "Acme2025") "s1" =
      alookup [("s1", docC)] "s1" :=
  ⟨mark_eliminated_skips_missing_entry.1 500 [("s1", docC)] ["s1"] "Acme2025" "s1"
      docC rfl (by decide),
   mark_eliminated_skips_missing_entry.2 500 [("s1", docC)] ["s2"] "Acme2025" "s1"
      (by decide)⟩

/-- The stored form of an eliminated student: only the drive's
`companyStatus` entry changes. -/
def markedDoc (cyid : String) (d : StudentDoc) (e : CompanyStatusEntry) : StudentDoc :=
  { d with companyStatus := aset d.companyStatus cyid (elimEntryUpdate e) }

theorem markedDoc_entry (cyid : String) (d : StudentDoc) (e : CompanyStatusEntry) :
    alookup (markedDoc cyid d e).companyStatus cyid = some (elimEntryUpdate e) := by
  simp [markedDoc, alookup_aset_self]

theorem elimEntryUpdate_idem (e : CompanyStatusEntry) :
    elimEntryUpdate (elimEntryUpdate e) = elimEntryUpdate e := rfl

theorem applyPatch_csOnly (dd : StudentDoc) (M : List (String × CompanyStatusEntry)) :
    applyPatch dd ⟨Option.none, Option.none, Option.none, some M,
      Option.none, Option.none, Option.none⟩ = { dd with companyStatus := M } := rfl

/-- Phase-B invariant: once the marked value is in the pending-applied
state, it survives the rest of the loop, even if the same id occurs again
in the list. -/
theorem mark_go_marked (bs : Nat) (cyid id : String) (d : StudentDoc)
    (e : CompanyStatusEntry) (hde : alookup d.companyStatus cyid = some e) :
    ∀ (sids : List String) (committed : Students) (pending : List WriteOp) (cnt : Nat),
    (alookup committed id = some d ∨
      alookup committed id = some (markedDoc cyid d e)) →
    alookup (applyOps committed pending) id = some (markedDoc cyid d e) →
    alookup (mark_go bs cyid sids committed pending cnt) id =
      some (markedDoc cyid d e) := by
  intro sids
  induction sids with
  | nil =>
    intro committed pending cnt h1 h2
    exact h2
  | cons sid rest ih =>
    intro committed pending cnt h1 h2
    simp only [mark_go]
    cases hdoc : alookup committed sid with
    | none => exact ih committed pending cnt h1 h2
    | some d' =>
      cases hcs : alookup d'.companyStatus cyid with
      | none =>
        simp only [hcs]
        exact ih committed pending cnt h1 h2
      | some e' =>
        simp only [hcs]
        by_cases hsid : sid = id
        · subst hsid
          have hd' : d' = d ∨ d' = markedDoc cyid d e := by
            rcases h1 with h1 | h1 <;> rw [h1] at hdoc
            · exact Or.inl (Option.some.inj hdoc).symm
            · exact Or.inr (Option.some.inj hdoc).symm
          have hM : aset d'.companyStatus cyid (elimEntryUpdate e') =
              (markedDoc cyid d e).companyStatus := by
            rcases hd' with rfl | rfl
            · have he' : e' = e := by
                rw [hde] at hcs
                exact (Option.some.inj hcs).symm
              rw [he']
              rfl
            · have he' : e' = elimEntryUpdate e := by
                rw [markedDoc_entry] at hcs
                exact (Option.some.inj hcs).symm
              rw [he']
              show aset (markedDoc cyid d e).companyStatus cyid
                  (elimEntryUpdate (elimEntryUpdate e)) = _
              rw [elimEntryUpdate_idem]
              simp [markedDoc, aset_aset_same]
          have hstate : alookup (applyOps committed (pending ++
              [WriteOp.updateDoc sid
                ⟨Option.none, Option.none, Option.none,
                 some (aset d'.companyStatus cyid (elimEntryUpdate e')),
                 Option.none, Option.none, Option.none⟩])) sid =
              some (markedDoc cyid d e) := by
            rw [applyOps_append_one]
            simp only [applyOp, h2]
            rw [alookup_aset_self, applyPatch_csOnly, hM]
          by_cases hb : bs ≤ cnt + 1
          · rw [if_pos hb]
            exact ih _ [] 0 (Or.inr hstate) hstate
          · rw [if_neg hb]
            exact ih committed _ (cnt + 1) h1 hstate
        · have hstate : alookup (applyOps committed (pending ++
              [WriteOp.updateDoc sid
                ⟨Option.none, Option.none, Option.none,
                 some (aset d'.companyStatus cyid (elimEntryUpdate e')),
                 Option.none, Option.none, Option.none⟩])) id =
              some (markedDoc cyid d e) := by
            rw [applyOps_append_one, alookup_applyOp_update_ne _ _ _ _ hsid, h2]
          by_cases hb : bs ≤ cnt + 1
          · rw [if_pos hb]
            exact ih _ [] 0 (Or.inr hstate) hstate
          · rw [if_neg hb]
            exact ih committed _ (cnt + 1) h1 hstate

/-- Phase-A invariant: an id still ahead in the list, whose committed
document has a `companyStatus` entry for the drive, ends the loop in its
marked form. -/
theorem mark_go_marks (bs : Nat) (cyid id : String) (d : StudentDoc)
    (e : CompanyStatusEntry) (hde : alookup d.companyStatus cyid = some e) :
    ∀ (sids : List String) (committed : Students) (pending : List WriteOp) (cnt : Nat),
    id ∈ sids →
    alookup committed id = some d →
    alookup (applyOps committed pending) id = some d →
    alookup (mark_go bs cyid sids committed pending cnt) id =
      some (markedDoc cyid d e) := by
  intro sids
  induction sids with
  | nil =>
    intro committed pending cnt hmem h1 h2
    cases hmem
  | cons sid rest ih =>
    intro committed pending cnt hmem h1 h2
    simp only [mark_go]
    cases hdoc : alookup committed sid with
    | none =>
      have hsid : sid ≠ id := by
        intro heq
        rw [heq, h1] at hdoc
        cases hdoc
      have hmem' : id ∈ rest := by
        rcases List.mem_cons.mp hmem with heq | hm
        · exact absurd heq.symm hsid
        · exact hm
      exact ih committed pending cnt hmem' h1 h2
    | some d' =>
      cases hcs : alookup d'.companyStatus cyid with
      | none =>
        simp only [hcs]
        have hsid : sid ≠ id := by
          intro heq
          rw [heq, h1] at hdoc
          have hdd : d' = d := (Option.some.inj hdoc).symm
          rw [hdd, hde] at hcs
          cases hcs
        have hmem' : id ∈ rest := by
          rcases List.mem_cons.mp hmem with heq | hm
          · exact absurd heq.symm hsid
          · exact hm
        exact ih committed pending cnt hmem' h1 h2
      | some e' =>
        simp only [hcs]
        by_cases hsid : sid = id
        · subst hsid
          have hd' : d' = d := by
            rw [h1] at hdoc
            exact (Option.some.inj hdoc).symm
          subst hd'
          have he' : e' = e := by
            rw [hde] at hcs
            exact (Option.some.inj hcs).symm
          subst he'
          have hstate : alookup (applyOps committed (pending ++
              [WriteOp.updateDoc sid
                ⟨Option.none, Option.none, Option.none,
                 some (aset d'.companyStatus cyid (elimEntryUpdate e')),
                 Option.none, Option.none, Option.none⟩])) sid =
              some (markedDoc cyid d' e') := by
            rw [applyOps_append_one]
            simp only [applyOp, h2]
            rw [alookup_aset_self, applyPatch_csOnly]
            rfl
          by_cases hb : bs ≤ cnt + 1
          · rw [if_pos hb]
            exact mark_go_marked bs cyid sid d' e' hde rest _ [] 0
              (Or.inr hstate) hstate
          · rw [if_neg hb]
            exact mark_go_marked bs cyid sid d' e' hde rest committed _ (cnt + 1)
              (Or.inl h1) hstate
        · have hmem' : id ∈ rest := by
            rcases List.mem_cons.mp hmem with heq | hm
            · exact absurd heq.symm hsid
            · exact hm
          have hstate : alookup (applyOps committed (pending ++
              [WriteOp.updateDoc sid
                ⟨Option.none, Option.none, Option.none,
                 some (aset d'.companyStatus cyid (elimEntryUpdate e')),
                 Option.none, Option.none, Option.none⟩])) id =
              some d := by
            rw [applyOps_append_one, alookup_applyOp_update_ne _ _ _ _ hsid, h2]
          by_cases hb : bs ≤ cnt + 1
          · rw [if_pos hb]
            exact ih _ [] 0 hmem' hstate hstate
          · rw [if_neg hb]
            exact ih committed _ (cnt + 1) hmem' h1 hstate

/-! ## C3: elimination bookkeeping -/

/-- A concrete document with no `companyStatus` entry for the drive. -/
def docNoEntry : StudentDoc :=
  ⟨Option.none, some "bala", Option.none, [], [], some "not_placed", some 0⟩

/-- C3 counterexample: `student_B` was in round 1, is absent from round
2's upload, and its document exists — yet after the round-2 elimination
step its `companyStatus` still has no entry for the drive, so
`companyStatus[D].status` is not `'not_selected'`: the claim's per-entity
clause fails for documents without an entry for the drive. -/
theorem elimination_missing_entry_cex :
    "student_B" ∈ eliminated_candidates
      [("Acme2025_round_1", [⟨some "student_B"⟩])] "Acme2025" 2 [] ∧
    alookup
      (elimination_step 500 [("student_B", docNoEntry)]
        [("Acme2025_round_1", [⟨some "student_B"⟩])] "Acme2025" 2 [])
      "student_B" = some docNoEntry ∧
    ¬ ((alookup
        (elimination_step 500 [("student_B", docNoEntry)]
          [("Acme2025_round_1", [⟨some "student_B"⟩])] "Acme2025" 2 [])
        "student_B").bind
        (fun dd => (alookup dd.companyStatus "Acme2025").map (fun en => en.status)) =
        some "not_selected") := by
  refine ⟨by decide, by decide, by decide⟩

/-- C3 (amended): for roundNumber > 1 the eliminated set is exactly the
previous round's recorded ids minus the current upload's ids; every
eliminated student whose document exists and whose `companyStatus` map
contains an entry for the drive gets that entry set to status
`'not_selected'` and finalSelection `false` with `roundReached` (and every
other field) unchanged; when roundNumber is 1 no elimination processing
occurs. -/
theorem elimination_round_bookkeeping (bs : Nat) (students : Students)
    (roundsData : RoundsData) (cyid : String) (rn : Int)
    (currentIds : List String) :
    (1 < rn → ∀ x,
      x ∈ eliminated_candidates roundsData cyid rn currentIds ↔
        (x ∈ get_previous_round_students roundsData cyid rn ∧ ¬ x ∈ currentIds)) ∧
    (∀ id d e, 1 < rn →
      id ∈ eliminated_candidates roundsData cyid rn currentIds →
      alookup students id = some d →
      alookup d.companyStatus cyid = some e →
      alookup (elimination_step bs students roundsData cyid rn currentIds) id =
        some { d with companyStatus := aset d.companyStatus cyid (CompanyStatusEntry.mk "not_selected" e.roundReached (some false) e.year) }) ∧
    (rn = 1 →
      elimination_step bs students roundsData cyid rn currentIds = students) := by
  refine ⟨?_, ?_, ?_⟩
  · intro _ x
    simp [eliminated_candidates, List.mem_filter]
  · intro id d e hrn hmem h1 h2
    have hnil : eliminated_candidates roundsData cyid rn currentIds ≠ [] :=
      List.ne_nil_of_mem hmem
    simp only [elimination_step]
    rw [if_pos hrn, if_neg hnil]
    simp only [mark_eliminated_students]
    rw [if_neg hnil]
    exact mark_go_marks bs cyid id d e h2 _ students [] 0 hmem h1 h1
  · intro hrn
    subst hrn
    simp [elimination_step]

/-- A concrete document with an in-process entry for the drive. -/
def docE : StudentDoc :=
  ⟨some "RA", some "anu", Option.none,
   [("Acme2025", ⟨"in_process", 1, Option.none, 2025⟩)], [],
   some "not_placed", some 0⟩

/-- Witness for C3's amended theorem: `sA` was in round 1, is not in round
2's upload, and its entry for the drive is rewritten to `not_selected`
with `roundReached` kept at 1; a round-1 call leaves the collection
untouched. -/
theorem elimination_round_bookkeeping_witness :
    alookup
      (elimination_step 500 [("sA", docE)]
        [("Acme2025_round_1", [⟨some "sA"⟩, ⟨some "sC"⟩])] "Acme2025" 2 ["sC"])
      "sA" =
      some { docE with companyStatus := aset docE.companyStatus "Acme2025" (CompanyStatusEntry.mk "not_selected" 1 (some false) 2025) } ∧
    elimination_step 500 [("sA", docE)]
      [("Acme2025_round_1", [⟨some "sA"⟩, ⟨some "sC"⟩])] "Acme2025" 1 ["sC"] =
      [("sA", docE)] :=
  ⟨(elimination_round_bookkeeping 500 [("sA", docE)]
      [("Acme2025_round_1", [⟨some "sA"⟩, ⟨some "sC"⟩])] "Acme2025" 2 ["sC"]).2.1
      "sA" docE ⟨"in_process", 1, Option.none, 2025⟩ (by decide) (by decide) rfl rfl,
   (elimination_round_bookkeeping 500 [("sA", docE)]
      [("Acme2025_round_1", [⟨some "sA"⟩, ⟨some "sC"⟩])] "Acme2025" 1 ["sC"]).2.2 rfl⟩

/-! ## C4: `currentStatus` never regresses from `placed` -/

theorem mkUpdatePatch_currentStatus (d : StudentDoc) (r : StudentRow)
    (cyid cn : String) (year rn : Int) (final : Bool) :
    (mkUpdatePatch d r cyid cn year rn final).currentStatus =
      (if final then some "placed" else Option.none) := rfl

/-- Invariant of the `update_students` loop: for any status predicate `S`
that holds of `"placed"`, a document present in the committed state whose
pending-applied status satisfies `S` still satisfies `S` at the end — the
update branch writes `currentStatus` only as `"placed"` (and only on final
rounds), and a present document never takes the creation branch. -/
theorem update_go_status (bs : Nat) (cyid cn : String) (year rn : Int)
    (final : Bool) (id : String) (S : Option String → Prop)
    (hS : S (some "placed")) :
    ∀ (rows : List StudentRow) (committed : Students) (pending : List WriteOp)
      (cnt : Nat),
    (∃ dc, alookup committed id = some dc) →
    (∃ da, alookup (applyOps committed pending) id = some da ∧ S da.currentStatus) →
    ∃ d', alookup (update_students_go bs cyid cn year rn final rows committed
        pending cnt) id = some d' ∧ S d'.currentStatus := by
  intro rows
  induction rows with
  | nil =>
    intro committed pending cnt h1 h2
    exact h2
  | cons r rs ih =>
    intro committed pending cnt h1 h2
    simp only [update_students_go]
    obtain ⟨da, hda, hSda⟩ := h2
    by_cases hr : r.id = id
    · obtain ⟨dc, hdc⟩ := h1
      rw [hr, hdc]
      have hstate : alookup (applyOps committed (pending ++
          [WriteOp.updateDoc id (mkUpdatePatch dc r cyid cn year rn final)])) id =
          some (applyPatch da (mkUpdatePatch dc r cyid cn year rn final)) := by
        rw [applyOps_append_one]
        simp only [applyOp, hda]
        exact alookup_aset_self _ _ _
      have hcur : S (applyPatch da
          (mkUpdatePatch dc r cyid cn year rn final)).currentStatus := by
        have hp : (applyPatch da (mkUpdatePatch dc r cyid cn year rn final)).currentStatus =
            (match (if final then some "placed" else Option.none : Option String) with
              | some v => some v
              | Option.none => da.currentStatus) := rfl
        rw [hp]
        cases final with
        | true => exact hS
        | false => exact hSda
      by_cases hb : bs ≤ cnt + 1
      · rw [if_pos hb]
        exact ih _ [] 0 ⟨_, hstate⟩ ⟨_, hstate, hcur⟩
      · rw [if_neg hb]
        exact ih committed _ (cnt + 1) ⟨dc, hdc⟩ ⟨_, hstate, hcur⟩
    · cases hdoc : alookup committed r.id with
      | some dcc =>
        have hstate : alookup (applyOps committed (pending ++
            [WriteOp.updateDoc r.id
              (mkUpdatePatch dcc r cyid cn year rn final)])) id = some da := by
          rw [applyOps_append_one, alookup_applyOp_update_ne _ _ _ _ hr, hda]
        by_cases hb : bs ≤ cnt + 1
        · rw [if_pos hb]
          exact ih _ [] 0 ⟨da, hstate⟩ ⟨da, hstate, hSda⟩
        · rw [if_neg hb]
          exact ih committed _ (cnt + 1) h1 ⟨da, hstate, hSda⟩
      | none =>
        have hstate : alookup (applyOps committed (pending ++
            [WriteOp.setDoc r.id
              (newStudentDoc r cyid cn year rn final)])) id = some da := by
          rw [applyOps_append_one, alookup_applyOp_set_ne _ _ _ _ hr, hda]
        by_cases hb : bs ≤ cnt + 1
        · rw [if_pos hb]
          exact ih _ [] 0 ⟨da, hstate⟩ ⟨da, hstate, hSda⟩
        · rw [if_neg hb]
          exact ih committed _ (cnt + 1) h1 ⟨da, hstate, hSda⟩

/-- The elimination loop writes only `companyStatus`: every document's
`currentStatus` is exactly preserved. -/
theorem mark_go_currentStatus (bs : Nat) (cyid id : String) (c0 : Option String) :
    ∀ (sids : List String) (committed : Students) (pending : List WriteOp) (cnt : Nat),
    (∃ da, alookup (applyOps committed pending) id = some da ∧
      da.currentStatus = c0) →
    ∃ d', alookup (mark_go bs cyid sids committed pending cnt) id = some d' ∧
      d'.currentStatus = c0 := by
  intro sids
  induction sids with
  | nil =>
    intro committed pending cnt h2
    exact h2
  | cons sid rest ih =>
    intro committed pending cnt h2
    simp only [mark_go]
    cases hdoc : alookup committed sid with
    | none => exact ih committed pending cnt h2
    | some d' =>
      cases hcs : alookup d'.companyStatus cyid with
      | none =>
        simp only [hcs]
        exact ih committed pending cnt h2
      | some e' =>
        simp only [hcs]
        obtain ⟨da, hda, hc⟩ := h2
        by_cases hsid : sid = id
        · subst hsid
          have hstate : alookup (applyOps committed (pending ++
              [WriteOp.updateDoc sid
                ⟨Option.none, Option.none, Option.none,
                 some (aset d'.companyStatus cyid (elimEntryUpdate e')),
                 Option.none, Option.none, Option.none⟩])) sid =
              some (applyPatch da
                ⟨Option.none, Option.none, Option.none,
                 some (aset d'.companyStatus cyid (elimEntryUpdate e')),
                 Option.none, Option.none, Option.none⟩) := by
            rw [applyOps_append_one]
            simp only [applyOp, hda]
            exact alookup_aset_self _ _ _
          have hcur : (applyPatch da
              ⟨Option.none, Option.none, Option.none,
               some (aset d'.companyStatus cyid (elimEntryUpdate e')),
               Option.none, Option.none, Option.none⟩).currentStatus = c0 := hc
          by_cases hb : bs ≤ cnt + 1
          · rw [if_pos hb]
            exact ih _ [] 0 ⟨_, hstate, hcur⟩
          · rw [if_neg hb]
            exact ih committed _ (cnt + 1) ⟨_, hstate, hcur⟩
        · have hstate : alookup (applyOps committed (pending ++
              [WriteOp.updateDoc sid
                ⟨Option.none, Option.none, Option.none,
                 some (aset d'.companyStatus cyid (elimEntryUpdate e')),
                 Option.none, Option.none, Option.none⟩])) id = some da := by
            rw [applyOps_append_one, alookup_applyOp_update_ne _ _ _ _ hsid, hda]
          by_cases hb : bs ≤ cnt + 1
          · rw [if_pos hb]
            exact ih _ [] 0 ⟨da, hstate, hc⟩
          · rw [if_neg hb]
            exact ih committed _ (cnt + 1) ⟨da, hstate, hc⟩

/-- C4: a student document whose `currentStatus` is `'placed'` keeps it
through any `update_students` call; for any pre-existing document the only
value `update_students` can write to `currentStatus` is `'placed'`; and
elimination marking preserves every document's `currentStatus` exactly. -/
theorem currentStatus_monotonic :
    (∀ (bs : Nat) (rows : List StudentRow) (students : Students)
        (cyid cn : String) (year rn : Int) (final : Bool) (id : String)
        (d : StudentDoc),
      alookup students id = some d → d.currentStatus = some "placed" →
      ∃ d', alookup (update_students bs rows students cyid cn year rn final) id =
          some d' ∧ d'.currentStatus = some "placed") ∧
    (∀ (bs : Nat) (rows : List StudentRow) (students : Students)
        (cyid cn : String) (year rn : Int) (final : Bool) (id : String)
        (d : StudentDoc),
      alookup students id = some d →
      ∃ d', alookup (update_students bs rows students cyid cn year rn final) id =
          some d' ∧
        (d'.currentStatus = d.currentStatus ∨ d'.currentStatus = some "placed")) ∧
    (∀ (bs : Nat) (students : Students) (elim : List String) (cyid id : String)
        (d : StudentDoc),
      alookup students id = some d →
      ∃ d', alookup (mark_eliminated_students bs students elim cyid) id =
          some d' ∧ d'.currentStatus = d.currentStatus) := by
  refine ⟨?_, ?_, ?_⟩
  · intro bs rows students cyid cn year rn final id d h1 h2
    exact update_go_status bs cyid cn year rn final id
      (fun c => c = some "placed") rfl rows students [] 0 ⟨d, h1⟩ ⟨d, h1, h2⟩
  · intro bs rows students cyid cn year rn final id d h1
    exact update_go_status bs cyid cn year rn final id
      (fun c => c = d.currentStatus ∨ c = some "placed") (Or.inr rfl)
      rows students [] 0 ⟨d, h1⟩ ⟨d, h1, Or.inl rfl⟩
  · intro bs students elim cyid id d h1
    simp only [mark_eliminated_students]
    split_ifs with he
    · exact ⟨d, h1, rfl⟩
    · exact mark_go_currentStatus bs cyid id d.currentStatus elim students [] 0
        ⟨d, h1, rfl⟩

/-- A concrete already-placed document. -/
def docP : StudentDoc :=
  ⟨some "R9", some "pat", Option.none, [], ["Beta"], some "placed", some 1⟩

/-- Witness for C4: a placed student stays placed through a non-final
round-2 upload that does not mention them, and through elimination
marking. -/
theorem currentStatus_monotonic_witness :
    (∃ d', alookup (update_students 500 [⟨"sX", .str "x9", .none, .none⟩]
        [("sP", docP)] "Acme2025" "Acme" 2025 2 false) "sP" = some d' ∧
      d'.currentStatus = some "placed") ∧
    (∃ d', alookup (mark_eliminated_students 500 [("sP", docP)] ["sP"]
        "Acme2025") "sP" = some d' ∧ d'.currentStatus = docP.currentStatus) :=
  ⟨currentStatus_monotonic.1 500 [⟨"sX", .str "x9", .none, .none⟩] [("sP", docP)]
      "Acme2025" "Acme" 2025 2 false "sP" docP rfl rfl,
   currentStatus_monotonic.2.2 500 [("sP", docP)] ["sP"] "Acme2025" "sP" docP rfl⟩
